import Mathlib

/-!
Verification of the `Wheel` component of `casino-style-custom-roulette`
(`src/dist/components/Wheel/index.js`) against its natural-language
specification.  JavaScript numbers that can be `NaN` are modelled by `JNum`
(`nan` or a rational value); a possibly-`undefined` number is `Option JNum`.
The component's React state is the `WheelState` record, and every effect of
the component (prize-map construction, spin start, spin stop, the completion
timer, the starting-option computation) is embedded as a pure function on it.
-/

/-- A JavaScript number: either `NaN` or an actual (rational) value. -/
inductive JNum where
  | nan : JNum
  | val : ℚ → JNum
deriving DecidableEq

/-- `Number.isNaN`. -/
def JNum.isNaN : JNum → Bool
  | .nan => true
  | .val _ => false

/-- JavaScript truthiness of a possibly-`undefined` number:
`undefined`, `NaN` and `0` are falsy, every other number is truthy. -/
def jsTruthy : Option JNum → Bool
  | none => false
  | some JNum.nan => false
  | some (JNum.val q) => q != 0

/-- The expression `optionSize || 1` from line 113 of the source:
the weight when it is truthy, otherwise `1`. -/
def weightOrOne (w : Option JNum) : JNum :=
  if jsTruthy w then w.getD (JNum.val 1) else JNum.val 1

/-- Number of iterations of the inner loop
`for (j = 0; j < (wheelDataAux[i].optionSize || 1); j++)` (lines 113-115):
the number of naturals strictly below the (never-`NaN`) bound. -/
def slotCount (w : Option JNum) : ℕ :=
  match weightOrOne w with
  | JNum.nan => 0
  | JNum.val q => (Int.ceil q).toNat

/-- The prize-map construction of the data-normalization effect
(lines 91-139): each segment receives the next `slotCount` consecutive slot
ids, starting from the running counter `initialMapNum`. -/
def auxPrizeMapFrom : List (Option JNum) → ℕ → List (List ℕ)
  | [], _ => []
  | w :: ws, n => List.range' n (slotCount w) :: auxPrizeMapFrom ws (n + slotCount w)

/-- The full prize map built from the per-segment weights (counter starts at 0). -/
def auxPrizeMap (ws : List (Option JNum)) : List (List ℕ) :=
  auxPrizeMapFrom ws 0

/-- A plain natural-number weight as a JavaScript value. -/
def natWeight (k : ℕ) : Option JNum :=
  some (JNum.val (k : ℚ))

/-- The prize map of a segment list whose weights are the naturals `ks`. -/
def prizeMapOfWeights (ks : List ℕ) : List (List ℕ) :=
  auxPrizeMap (ks.map natWeight)

/-- Modelled from the spec: `getQuantity` lives in `src/utils.ts`, which is not
included under `src/`.  Per the spec (§4.1, `totalSlots`) it is the sum of the
per-segment weight counts, i.e. of the slot-row lengths of the prize map. -/
def totalSlots (m : List (List ℕ)) : ℕ :=
  (m.map List.length).sum

/-- `NaN`-propagating addition of JavaScript numbers. -/
def jadd : JNum → JNum → JNum
  | JNum.val a, JNum.val b => JNum.val (a + b)
  | _, _ => JNum.nan

/-- Modelled from the spec: the numeric total that `getQuantity`
(`src/utils.ts`, not under `src/`) computes from the raw per-segment weights;
per the spec it "fails (signals `InvalidWeight`) if any weight resolves to
`NaN` after coercion", modelled by `NaN`-propagation through the sum. -/
def getQuantity (ws : List JNum) : JNum :=
  ws.foldr jadd (JNum.val 0)

/-- The slot-derived base component of a rotation angle: the slot's starting
angle plus half a slot width, centring the pointer within the slot. -/
def rotationBase (slotId : ℚ) (total : ℚ) : ℚ :=
  360 / total * slotId + 360 / total / 2

/-- Modelled from the spec: `getRotationDegrees` lives in `src/utils.ts`,
which is not included under `src/`.  Per the spec (§4.1,
`rotationDegreesForSlot`) the angle is the slot's base angle plus half a slot
width and, when `randomize` is set, a pseudo-random jitter within the slot
width plus a fixed count of whole turns; `NaN` operands propagate. -/
def getRotationDegrees (slot : JNum) (total : JNum) (randomize : Bool)
    (jitter : ℚ) (turns : ℕ) : JNum :=
  match slot, total with
  | JNum.val s, JNum.val q =>
      JNum.val (rotationBase s q + if randomize then jitter + 360 * turns else 0)
  | _, _ => JNum.nan

/-- A possibly-`undefined` slot id used in numeric context:
`undefined` coerces to `NaN`. -/
def jslot : Option ℕ → JNum
  | some n => JNum.val (n : ℚ)
  | none => JNum.nan

/-- JavaScript array indexing with an integer index:
out-of-range (including negative) indices yield `undefined`. -/
def jsIndex {α : Type} (l : List α) (i : ℤ) : Option α :=
  if 0 ≤ i then l[i.toNat]? else none

/-- A thrown JavaScript exception. -/
inductive JsError where
  | typeError
deriving DecidableEq

/-- The React state of the `Wheel` component that the spin lifecycle touches
(lines 71-82), together with observation counters for the armed timers and
the invocations of the host completion callback `onStopSpinning`. -/
structure WheelState where
  prizeMap : List (List ℕ)
  startRotationDegrees : JNum
  finalRotationDegrees : JNum
  hasStartedSpinning : Bool
  hasStoppedSpinning : Bool
  isCurrentlySpinning : Bool
  mustStopSpinning : Bool
  timersArmed : ℕ
  onStopCount : ℕ
deriving DecidableEq

/-- `startSpinning` (lines 202-214): set the spin flags, arm the
`mustStopSpinning` ref and schedule the completion timer. -/
def startSpinning (s : WheelState) : WheelState :=
  { s with hasStartedSpinning := true, hasStoppedSpinning := false,
           mustStopSpinning := true, timersArmed := s.timersArmed + 1 }

/-- The body of the completion timer (lines 206-213): if the armed flag is
still set, clear it, flip the spin flags and invoke `onStopSpinning`. -/
def timerBody (s : WheelState) : WheelState :=
  if s.mustStopSpinning then
    { s with mustStopSpinning := false, hasStartedSpinning := false,
             hasStoppedSpinning := true, onStopCount := s.onStopCount + 1 }
  else s

/-- The spin-start effect body (lines 179-195).  `r` is the random draw in
`[0,1)` used to pick the slot, `jitter` and `turns` feed the modelled
`getRotationDegrees`, and `totalQuantity` is the value returned by the call
`getQuantity(prizeMap)` into `src/utils.ts` (code not under `src/`). -/
def spinStartEffect (mustStartSpinning : Bool) (prizeNumber : ℤ) (r jitter : ℚ)
    (turns : ℕ) (totalQuantity : JNum) (s : WheelState) : WheelState :=
  if mustStartSpinning && !s.isCurrentlySpinning then
    if s.prizeMap.length = 0 then s
    else
      match jsIndex s.prizeMap prizeNumber with
      | none => s
      | some prizeRow =>
        if prizeRow.length = 0 then s
        else
          let s1 := startSpinning { s with isCurrentlySpinning := true }
          let selectedPrize := jslot (prizeRow[(Int.floor (r * prizeRow.length)).toNat]?)
          if totalQuantity.isNaN then s1
          else { s1 with finalRotationDegrees :=
                   getRotationDegrees selectedPrize totalQuantity true jitter turns }
  else s

/-- The `hasStoppedSpinning` effect (lines 196-201): clear the spinning flag
and fold the final rotation back into the start rotation. -/
def stopEffect (s : WheelState) : WheelState :=
  if s.hasStoppedSpinning then
    { s with isCurrentlySpinning := false,
             startRotationDegrees := s.finalRotationDegrees }
  else s

/-- One render cycle for the spin-start effect with dependency array
`[mustStartSpinning]` (line 195): the effect body runs only when the trigger
value differs from the previously rendered one. -/
def wheelRender (prevTrigger mustStartSpinning : Bool) (prizeNumber : ℤ)
    (r jitter : ℚ) (turns : ℕ) (totalQuantity : JNum) (s : WheelState) :
    Bool × WheelState :=
  if mustStartSpinning = prevTrigger then (prevTrigger, s)
  else (mustStartSpinning,
        spinStartEffect mustStartSpinning prizeNumber r jitter turns totalQuantity s)

/-- `setStartingOption` (lines 215-222).  When the starting index is
non-negative the code computes `idx = Math.floor(optionIndex) % optionMap.length`
and reads `optionMap[idx][Math.floor(optionMap[idx]?.length / 2)]`; on an
empty map `idx` is `NaN` (`% 0`), `optionMap[NaN]` is `undefined`, and the
outer unguarded element access throws a `TypeError`.  `totalQuantity` is the
value of the call `getQuantity(optionMap)` into `src/utils.ts`. -/
def setStartingOption (optionIndex : ℚ) (optionMap : List (List ℕ))
    (totalQuantity : JNum) : Except JsError (Option JNum) :=
  if 0 ≤ optionIndex then
    if optionMap.length = 0 then Except.error JsError.typeError
    else
      match optionMap[(Int.floor optionIndex % (optionMap.length : ℤ)).toNat]? with
      | none => Except.error JsError.typeError
      | some row =>
          Except.ok (some (getRotationDegrees (jslot row[row.length / 2]?)
            totalQuantity false 0 0))
  else Except.ok none

/-- The value of `startRotationDegrees` after the data-normalization effect:
it is initialized to `0` by `useState(0)` (line 72) and overwritten only when
`setStartingOption` performs its `setStartRotationDegrees` call. -/
def initialStartRotation (optionIndex : ℚ) (optionMap : List (List ℕ))
    (totalQuantity : JNum) : Except JsError JNum :=
  (setStartingOption optionIndex optionMap totalQuantity).map
    (fun o => o.getD (JNum.val 0))

/-- A concrete idle component state with prize map `[[0], [1, 2, 3]]`
(weights 1 and 3). -/
def idleState : WheelState :=
  { prizeMap := [[0], [1, 2, 3]], startRotationDegrees := JNum.val 0,
    finalRotationDegrees := JNum.val 0, hasStartedSpinning := false,
    hasStoppedSpinning := false, isCurrentlySpinning := false,
    mustStopSpinning := false, timersArmed := 0, onStopCount := 0 }

/-- A concrete state in the middle of a spin. -/
def spinningState : WheelState :=
  { prizeMap := [[0], [1, 2, 3]], startRotationDegrees := JNum.val 0,
    finalRotationDegrees := JNum.val 500, hasStartedSpinning := true,
    hasStoppedSpinning := false, isCurrentlySpinning := true,
    mustStopSpinning := true, timersArmed := 1, onStopCount := 0 }

/-- A concrete state just after the completion timer fired. -/
def stoppedState : WheelState :=
  { prizeMap := [[0], [1, 2, 3]], startRotationDegrees := JNum.val 0,
    finalRotationDegrees := JNum.val 500, hasStartedSpinning := false,
    hasStoppedSpinning := true, isCurrentlySpinning := false,
    mustStopSpinning := false, timersArmed := 1, onStopCount := 1 }

/-! ### Helper lemmas -/

theorem slotCount_natCast (k : ℕ) (hk : 1 ≤ k) :
    slotCount (natWeight k) = k := by
  have hne : ((k : ℚ) != 0) = true := by
    simp only [bne_iff_ne, ne_eq, Nat.cast_eq_zero]
    omega
  simp [slotCount, natWeight, weightOrOne, jsTruthy, hne]

theorem auxPrizeMapFrom_length (ws : List (Option JNum)) (n : ℕ) :
    (auxPrizeMapFrom ws n).length = ws.length := by
  induction ws generalizing n with
  | nil => rfl
  | cons w ws ih => simp [auxPrizeMapFrom, ih]

theorem auxPrizeMapFrom_flatten (ws : List (Option JNum)) (n : ℕ) :
    (auxPrizeMapFrom ws n).flatten = List.range' n ((ws.map slotCount).sum) := by
  induction ws generalizing n with
  | nil => rfl
  | cons w ws ih =>
      simp only [auxPrizeMapFrom, List.flatten_cons, ih, List.map_cons, List.sum_cons]
      rw [List.range'_append_1, Nat.add_comm]

theorem auxPrizeMapFrom_getElem (ks : List ℕ) :
    ∀ (n i k : ℕ), (∀ a ∈ ks, 1 ≤ a) → ks[i]? = some k →
      (auxPrizeMapFrom (ks.map natWeight) n)[i]? =
        some (List.range' (n + (ks.take i).sum) k) := by
  induction ks with
  | nil => intro n i k _ h; simp at h
  | cons k0 ks ih =>
      intro n i k hk h
      have hk0 : 1 ≤ k0 := hk k0 (List.mem_cons_self k0 ks)
      cases i with
      | zero =>
          obtain rfl : k0 = k := by simpa using h
          simp [auxPrizeMapFrom, slotCount_natCast k0 hk0]
      | succ i =>
          simp only [List.getElem?_cons_succ] at h
          simp only [List.map_cons, auxPrizeMapFrom, List.getElem?_cons_succ,
            slotCount_natCast k0 hk0]
          rw [ih (n + k0) i k (fun a ha => hk a (List.mem_cons_of_mem _ ha)) h]
          simp [List.take_succ_cons, Nat.add_assoc]

theorem map_slotCount_eq (ks : List ℕ) (hk : ∀ a ∈ ks, 1 ≤ a) :
    ((ks.map natWeight).map slotCount) = ks := by
  induction ks with
  | nil => rfl
  | cons k ks ih =>
      simp only [List.map_cons, List.cons.injEq]
      exact ⟨slotCount_natCast k (hk k (List.mem_cons_self k ks)),
             ih fun a ha => hk a (List.mem_cons_of_mem _ ha)⟩

/-! ### C4 -/

/-- C4: for weights `w_1..w_n` (each ≥ 1) the prize map has one row per
segment in segment order, the i-th row is the contiguous ascending block of
exactly `w_i` slot ids starting at `w_1 + ... + w_(i-1)`, and the rows
flatten, in order and without gaps or overlaps, to exactly `[0, Σw_i)`. -/
theorem c4_prize_map_partitions (ks : List ℕ) (hk : ∀ k ∈ ks, 1 ≤ k) :
    (prizeMapOfWeights ks).length = ks.length ∧
    (prizeMapOfWeights ks).flatten = List.range ks.sum ∧
    ∀ i k, ks[i]? = some k →
      (prizeMapOfWeights ks)[i]? = some (List.range' ((ks.take i).sum) k) := by
  refine ⟨?_, ?_, ?_⟩
  · rw [prizeMapOfWeights, auxPrizeMap, auxPrizeMapFrom_length, List.length_map]
  · rw [prizeMapOfWeights, auxPrizeMap, auxPrizeMapFrom_flatten,
        map_slotCount_eq ks hk, List.range_eq_range']
  · intro i k h
    have := auxPrizeMapFrom_getElem ks 0 i k hk h
    simpa [prizeMapOfWeights, auxPrizeMap] using this

/-- Witness for C4 at the spec's own scenario, weights `[1, 3]`. -/
theorem c4_witness :
    (prizeMapOfWeights [1, 3]).length = [1, 3].length ∧
    (prizeMapOfWeights [1, 3]).flatten = List.range ([1, 3].sum) ∧
    ∀ i k, [1, 3][i]? = some k →
      (prizeMapOfWeights [1, 3])[i]? = some (List.range' (([1, 3].take i).sum) k) :=
  c4_prize_map_partitions [1, 3] (by decide)

/-! ### C6 -/

/-- C6 counterexample: a segment with (strictly) negative weight is not
treated as weight 1 — its slot row is empty, so it receives no slot at all. -/
theorem c6_counterexample :
    (auxPrizeMap [some (JNum.val (-1))])[0]? = some [] ∧
    slotCount (some (JNum.val (-1))) ≠ 1 := by decide

/-- C6 (amended): a missing, `NaN` or zero weight is treated as weight 1
(`optionSize || 1` replaces every falsy weight by 1); a positive weight gets
at least one slot; but a strictly negative weight is truthy, survives the
`|| 1` fallback, and yields an empty slot row. -/
theorem c6_weight_clamping (w : Option JNum) (q : ℚ) :
    ((w = none ∨ w = some JNum.nan ∨ w = some (JNum.val 0)) → slotCount w = 1) ∧
    (q < 0 → slotCount (some (JNum.val q)) = 0) ∧
    (0 < q → 1 ≤ slotCount (some (JNum.val q))) := by
  refine ⟨?_, ?_, ?_⟩
  · rintro (rfl | rfl | rfl) <;> decide
  · intro hq
    have hne : (q != 0) = true := by
      simp only [bne_iff_ne, ne_eq]
      exact ne_of_lt hq
    have hc : ⌈q⌉ ≤ 0 := Int.ceil_le.mpr (by exact_mod_cast le_of_lt hq)
    simp [slotCount, weightOrOne, jsTruthy, hne]
    omega
  · intro hq
    have hne : (q != 0) = true := by
      simp only [bne_iff_ne, ne_eq]
      exact ne_of_gt hq
    have hc : 0 < ⌈q⌉ := Int.ceil_pos.mpr hq
    simp [slotCount, weightOrOne, jsTruthy, hne]
    omega

/-- Witness for C6 (amended) at concrete weights. -/
theorem c6_witness :
    slotCount none = 1 ∧ slotCount (some (JNum.val (-2))) = 0 ∧
    1 ≤ slotCount (some (JNum.val (5 / 2))) :=
  ⟨(c6_weight_clamping none 1).1 (Or.inl rfl),
   (c6_weight_clamping (some (JNum.val (-2))) (-2)).2.1 (by norm_num),
   (c6_weight_clamping (some (JNum.val (5 / 2))) (5 / 2)).2.2 (by norm_num)⟩

/-! ### C3 -/

/-- C3: an invalid spin request — empty prize map, prize index that resolves
to no row, or an empty slot row — makes the spin-start effect a no-op: the
resulting state is exactly the input state (rotations, flags and timers all
untouched). -/
theorem c3_invalid_spin_request_noop (s : WheelState) (p : ℤ) (r jitter : ℚ)
    (turns : ℕ) (tq : JNum)
    (h : s.prizeMap.length = 0 ∨ jsIndex s.prizeMap p = none ∨
         jsIndex s.prizeMap p = some []) :
    spinStartEffect true p r jitter turns tq s = s := by
  unfold spinStartEffect
  by_cases hc : s.isCurrentlySpinning
  · simp [hc]
  · rcases h with h | h | h
    · simp [hc, h]
    · simp [hc, h]
    · simp [hc, h]

/-- A concrete mounted state whose prize map is empty. -/
def emptyMapState : WheelState :=
  { idleState with prizeMap := [] }

/-- Witness for C3: an empty prize map leaves the state unchanged. -/
theorem c3_witness :
    spinStartEffect true 0 0 0 5 (JNum.val 4) emptyMapState = emptyMapState :=
  c3_invalid_spin_request_noop emptyMapState 0 0 0 5 (JNum.val 4) (Or.inl rfl)

/-! ### C7 -/

/-- C7: when `hasStoppedSpinning` turns true, the stop effect copies the
final rotation into the start rotation exactly (same `JNum`, no drift),
leaves the final rotation itself unchanged, and clears the spinning flag. -/
theorem c7_round_trip (s : WheelState) (h : s.hasStoppedSpinning = true) :
    (stopEffect s).startRotationDegrees = s.finalRotationDegrees ∧
    (stopEffect s).finalRotationDegrees = s.finalRotationDegrees ∧
    (stopEffect s).isCurrentlySpinning = false := by
  simp [stopEffect, h]

/-- Witness for C7 at a concrete settled state. -/
theorem c7_witness :
    (stopEffect stoppedState).startRotationDegrees = stoppedState.finalRotationDegrees ∧
    (stopEffect stoppedState).finalRotationDegrees = stoppedState.finalRotationDegrees ∧
    (stopEffect stoppedState).isCurrentlySpinning = false :=
  c7_round_trip stoppedState rfl

/-! ### C8 -/

/-- C8: the spin-start effect is edge-triggered and idempotent while
spinning: a render with the trigger value unchanged does not run the effect
at all (state and remembered trigger unchanged), and any activation while
`isCurrentlySpinning` is true leaves the state untouched, so the target
rotation is computed at most once per rising edge. -/
theorem c8_edge_triggered_idempotent (b : Bool) (p : ℤ) (r jitter : ℚ)
    (turns : ℕ) (tq : JNum) (s : WheelState) :
    wheelRender b b p r jitter turns tq s = (b, s) ∧
    (s.isCurrentlySpinning = true → spinStartEffect true p r jitter turns tq s = s) ∧
    (s.isCurrentlySpinning = true →
      wheelRender false true p r jitter turns tq s = (true, s)) := by
  refine ⟨by simp [wheelRender], fun h => by simp [spinStartEffect, h],
    fun h => by simp [wheelRender, spinStartEffect, h]⟩

/-- Witness for C8 at a concrete in-progress spin. -/
theorem c8_witness :
    wheelRender true true 1 0 0 5 (JNum.val 4) spinningState = (true, spinningState) ∧
    spinStartEffect true 1 0 0 5 (JNum.val 4) spinningState = spinningState :=
  ⟨(c8_edge_triggered_idempotent true 1 0 0 5 (JNum.val 4) spinningState).1,
   (c8_edge_triggered_idempotent true 1 0 0 5 (JNum.val 4) spinningState).2.1 rfl⟩

/-! ### C9 -/

/-- C9 counterexample: a subsequent spin start does not make a late-firing
timer a no-op — `startSpinning` sets the armed flag to `true`, so the timer
body then runs its effects and fires the completion callback. -/
theorem c9_counterexample :
    timerBody (startSpinning idleState) ≠ startSpinning idleState ∧
    (timerBody (startSpinning idleState)).onStopCount =
      (startSpinning idleState).onStopCount + 1 := by decide

/-- C9 (amended): the timer body is a no-op once the armed flag is cleared,
and running it twice equals running it once, so per arming of the flag its
effects — including the completion callback — occur at most once.  (A
subsequent spin start re-arms the flag rather than cancelling it, so a timer
firing after that re-arming is not a no-op.) -/
theorem c9_timer_at_most_once (s : WheelState) :
    (s.mustStopSpinning = false → timerBody s = s) ∧
    timerBody (timerBody s) = timerBody s ∧
    (timerBody s).onStopCount ≤ s.onStopCount + 1 := by
  refine ⟨fun h => by simp [timerBody, h], ?_, ?_⟩
  · by_cases h : s.mustStopSpinning <;> simp [timerBody, h]
  · by_cases h : s.mustStopSpinning <;> simp [timerBody, h]

/-- Witness for C9 (amended) at concrete states. -/
theorem c9_witness :
    timerBody idleState = idleState ∧
    timerBody (timerBody spinningState) = timerBody spinningState :=
  ⟨(c9_timer_at_most_once idleState).1 rfl,
   (c9_timer_at_most_once spinningState).2.1⟩

/-! ### C2 -/

/-- C2 counterexample: with a `NaN` weight total the spin-start transition is
not skipped like an invalid request — the spinning flag still flips to true
and a completion timer is still armed; only the final-rotation update is
skipped. -/
theorem c2_counterexample :
    (spinStartEffect true 0 0 0 5 (getQuantity [JNum.nan, JNum.val 1])
        idleState).isCurrentlySpinning = true ∧
    (spinStartEffect true 0 0 0 5 (getQuantity [JNum.nan, JNum.val 1])
        idleState).timersArmed = 1 := by decide

/-- C2 (amended): when the weight total is `NaN` on an otherwise valid spin
request, only the final-rotation update is skipped; the spin nevertheless
starts — `isCurrentlySpinning`, `hasStartedSpinning` and the armed flag are
set and a completion timer is armed (so the completion callback will fire) —
because the `NaN` check sits after `setIsCurrentlySpinning(true)` and
`startSpinning()` in the effect body. -/
theorem c2_nan_quantity_still_starts_spin (s : WheelState) (p : ℤ)
    (r jitter : ℚ) (turns : ℕ) (tq : JNum) (row : List ℕ)
    (hspin : s.isCurrentlySpinning = false)
    (hrow : jsIndex s.prizeMap p = some row) (hne : row.length ≠ 0)
    (htq : tq.isNaN = true) :
    spinStartEffect true p r jitter turns tq s =
      { s with isCurrentlySpinning := true, hasStartedSpinning := true,
               hasStoppedSpinning := false, mustStopSpinning := true,
               timersArmed := s.timersArmed + 1 } := by
  have hlen : s.prizeMap.length ≠ 0 := by
    intro h0
    rw [List.length_eq_zero.mp h0] at hrow
    simp [jsIndex] at hrow
  unfold spinStartEffect
  simp [hspin, hlen, hrow, hne, startSpinning, htq]

/-- Witness for C2 (amended): a concrete `NaN` weight sum produced by the
modelled `getQuantity`. -/
theorem c2_witness :
    spinStartEffect true 1 0 0 5 (getQuantity [JNum.nan]) idleState =
      { idleState with isCurrentlySpinning := true, hasStartedSpinning := true,
                       hasStoppedSpinning := false, mustStopSpinning := true,
                       timersArmed := idleState.timersArmed + 1 } :=
  c2_nan_quantity_still_starts_spin idleState 1 0 0 5 (getQuantity [JNum.nan])
    [1, 2, 3] rfl (by decide) (by decide) (by decide)

/-! ### C5 -/

/-- C5 (code bug): on an empty segment list with a non-negative
`startingOptionIndex`, `setStartingOption` computes `idx = NaN` (`% 0`) and
evaluates `optionMap[NaN][...]`, i.e. a property access on `undefined`,
throwing a `TypeError` across the component boundary. -/
theorem c5_empty_map_starting_option_throws :
    setStartingOption 0 [] (JNum.val 0) = Except.error JsError.typeError := by
  rfl

/-! ### Helper lemmas for C1 and C10 -/

theorem jsIndex_eq_some {α : Type} {l : List α} {i : ℤ} {a : α}
    (h : jsIndex l i = some a) : 0 ≤ i ∧ l[i.toNat]? = some a := by
  by_cases hi : 0 ≤ i
  · exact ⟨hi, by simpa [jsIndex, hi] using h⟩
  · simp [jsIndex, hi] at h

theorem jsIndex_mem {α : Type} {l : List α} {i : ℤ} {a : α}
    (h : jsIndex l i = some a) : a ∈ l :=
  List.getElem?_mem (jsIndex_eq_some h).2

theorem length_le_totalSlots {m : List (List ℕ)} {row : List ℕ} (h : row ∈ m) :
    row.length ≤ totalSlots m :=
  List.single_le_sum (fun x _ => Nat.zero_le x) _
    (List.mem_map_of_mem List.length h)

theorem floor_mul_toNat_lt {r : ℚ} (len : ℕ) (h0 : 0 ≤ r) (h1 : r < 1)
    (hlen : len ≠ 0) : (Int.floor (r * len)).toNat < len := by
  have hl : (0 : ℚ) < len := by exact_mod_cast Nat.pos_of_ne_zero hlen
  have hnn : 0 ≤ Int.floor (r * (len : ℚ)) :=
    Int.floor_nonneg.mpr (mul_nonneg h0 (le_of_lt hl))
  have hlt : Int.floor (r * (len : ℚ)) < (len : ℤ) := by
    apply Int.floor_lt.mpr
    push_cast
    calc r * len < 1 * len := mul_lt_mul_of_pos_right h1 hl
    _ = len := one_mul _
  omega

theorem rotationBase_floor_div (sl : ℕ) (q : ℚ) (hq : 0 < q) :
    Int.floor (rotationBase sl q / (360 / q)) = sl := by
  have hw : (360 / q) ≠ 0 := div_ne_zero (by norm_num) (ne_of_gt hq)
  have h1 : rotationBase sl q = 360 / q * ((sl : ℚ) + 1 / 2) := by
    rw [rotationBase]; ring
  have h2 : Int.floor ((1 / 2 : ℚ)) = 0 := by
    rw [Int.floor_eq_zero_iff]
    constructor <;> norm_num
  rw [h1, mul_div_cancel_left₀ _ hw, add_comm, Int.floor_add_nat, h2, zero_add]

theorem prizeMapOfWeights_length (ks : List ℕ) :
    (prizeMapOfWeights ks).length = ks.length := by
  rw [prizeMapOfWeights, auxPrizeMap, auxPrizeMapFrom_length, List.length_map]

theorem prizeMapOfWeights_getElem (ks : List ℕ) (hk : ∀ a ∈ ks, 1 ≤ a)
    (i k : ℕ) (h : ks[i]? = some k) :
    (prizeMapOfWeights ks)[i]? = some (List.range' ((ks.take i).sum) k) := by
  simpa [prizeMapOfWeights, auxPrizeMap] using auxPrizeMapFrom_getElem ks 0 i k hk h

/-! ### C1 -/

/-- C1: on a valid spin request with a non-empty slot row for the requested
prize, for every random draw `r ∈ [0,1)` the slot used for the target-angle
computation is an element of the prize's own slot row (`prizeMap[p]`), the
final rotation is that slot's base angle plus jitter and whole turns, and
the base angle, divided by the slot width, floors back to that very slot —
so the slot-derived base component lies inside segment `p`'s angular span. -/
theorem c1_selected_slot_in_segment (s : WheelState) (p : ℤ) (r jitter : ℚ)
    (turns : ℕ) (row : List ℕ)
    (hspin : s.isCurrentlySpinning = false)
    (hrow : jsIndex s.prizeMap p = some row) (hne : row.length ≠ 0)
    (hr0 : 0 ≤ r) (hr1 : r < 1) :
    ∃ sl : ℕ,
      row[(Int.floor (r * row.length)).toNat]? = some sl ∧
      sl ∈ row ∧
      (spinStartEffect true p r jitter turns
          (JNum.val (totalSlots s.prizeMap)) s).finalRotationDegrees =
        JNum.val (rotationBase sl (totalSlots s.prizeMap) +
          (jitter + 360 * turns)) ∧
      Int.floor (rotationBase sl (totalSlots s.prizeMap) /
        (360 / (totalSlots s.prizeMap))) = sl := by
  have hidx : (Int.floor (r * row.length)).toNat < row.length :=
    floor_mul_toNat_lt row.length hr0 hr1 hne
  obtain ⟨sl, hsl⟩ : ∃ sl, row[(Int.floor (r * row.length)).toNat]? = some sl :=
    ⟨_, List.getElem?_eq_getElem hidx⟩
  have hmem : sl ∈ row := List.getElem?_mem hsl
  have hrowmem : row ∈ s.prizeMap := jsIndex_mem hrow
  have hts : 1 ≤ totalSlots s.prizeMap :=
    le_trans (Nat.one_le_iff_ne_zero.mpr hne) (length_le_totalSlots hrowmem)
  have hq : (0 : ℚ) < (totalSlots s.prizeMap : ℚ) := by exact_mod_cast hts
  have hlen : s.prizeMap.length ≠ 0 := by
    intro h0
    rw [List.length_eq_zero.mp h0] at hrowmem
    simp at hrowmem
  refine ⟨sl, hsl, hmem, ?_, rotationBase_floor_div sl _ hq⟩
  unfold spinStartEffect
  simp [hspin, hlen, hrow, hne, hsl, startSpinning, jslot, getRotationDegrees,
    JNum.isNaN]

/-- Witness for C1: prize 1 of the weights `[1, 3]` wheel, draw `r = 1/2`. -/
theorem c1_witness :
    ∃ sl : ℕ,
      ([1, 2, 3] : List ℕ)[(Int.floor ((1 / 2 : ℚ) *
        ([1, 2, 3] : List ℕ).length)).toNat]? = some sl ∧
      sl ∈ ([1, 2, 3] : List ℕ) ∧
      (spinStartEffect true 1 (1 / 2) 7 5
          (JNum.val (totalSlots idleState.prizeMap)) idleState).finalRotationDegrees =
        JNum.val (rotationBase sl (totalSlots idleState.prizeMap) +
          (7 + 360 * (5 : ℕ))) ∧
      Int.floor (rotationBase sl (totalSlots idleState.prizeMap) /
        (360 / (totalSlots idleState.prizeMap))) = sl :=
  c1_selected_slot_in_segment idleState 1 (1 / 2) 7 5 [1, 2, 3] rfl (by decide)
    (by decide) (by norm_num) (by norm_num)

/-! ### C10 -/

/-- C10: for a non-empty segment list with weights ≥ 1, a non-negative
starting index makes the initial start rotation the (jitter-free,
no-extra-turns) rotation of the middle slot of the segment at index
`floor(startingOptionIndex) mod (number of segments)` — an out-of-range
index wraps around — while a negative starting index leaves the start
rotation at its initial value `0`. -/
theorem c10_starting_option (ks : List ℕ) (hk : ∀ k ∈ ks, 1 ≤ k)
    (hne : ks ≠ []) (i : ℚ) (tq : JNum) :
    (i < 0 → initialStartRotation i (prizeMapOfWeights ks) tq =
      Except.ok (JNum.val 0)) ∧
    (0 ≤ i → ∃ row m,
      (prizeMapOfWeights ks)[(Int.floor i % (ks.length : ℤ)).toNat]? = some row ∧
      row[row.length / 2]? = some m ∧
      initialStartRotation i (prizeMapOfWeights ks) tq =
        Except.ok (getRotationDegrees (JNum.val m) tq false 0 0)) := by
  have hlen : ks.length ≠ 0 := fun h => hne (List.length_eq_zero.mp h)
  have hmaplen : (prizeMapOfWeights ks).length = ks.length :=
    prizeMapOfWeights_length ks
  constructor
  · intro hi
    rw [initialStartRotation, setStartingOption, if_neg (not_le.mpr hi)]
    rfl
  · intro hi
    have hlz : (0 : ℤ) < (ks.length : ℤ) := by
      exact_mod_cast Nat.pos_of_ne_zero hlen
    have hjlt : (Int.floor i % (ks.length : ℤ)).toNat < ks.length := by
      have h1 : 0 ≤ Int.floor i % (ks.length : ℤ) :=
        Int.emod_nonneg _ (ne_of_gt hlz)
      have h2 : Int.floor i % (ks.length : ℤ) < (ks.length : ℤ) :=
        Int.emod_lt_of_pos _ hlz
      omega
    obtain ⟨k, hkk⟩ :
        ∃ k, ks[(Int.floor i % (ks.length : ℤ)).toNat]? = some k :=
      ⟨_, List.getElem?_eq_getElem hjlt⟩
    have hk1 : 1 ≤ k := hk k (List.getElem?_mem hkk)
    have hrow := prizeMapOfWeights_getElem ks hk _ k hkk
    have hmid :
        (List.range' ((ks.take ((Int.floor i % (ks.length : ℤ)).toNat)).sum)
          k)[k / 2]? =
        some ((ks.take ((Int.floor i % (ks.length : ℤ)).toNat)).sum +
          1 * (k / 2)) :=
      List.getElem?_range' _ _ (Nat.div_lt_self (by omega) (by norm_num))
    refine ⟨_, (ks.take ((Int.floor i % (ks.length : ℤ)).toNat)).sum + 1 * (k / 2),
      hrow, ?_, ?_⟩
    · rw [List.length_range']
      exact hmid
    · rw [initialStartRotation, setStartingOption, if_pos hi, hmaplen,
        if_neg hlen, hrow]
      simp [hmid, jslot, Except.map]

/-- Witness for C10 at weights `[1, 3]`: index 5 wraps to segment 1 (middle
slot 2 of `[1, 2, 3]`), index -1 leaves the rotation at 0. -/
theorem c10_witness :
    initialStartRotation (-1) (prizeMapOfWeights [1, 3]) (JNum.val 4) =
      Except.ok (JNum.val 0) ∧
    ∃ row m,
      (prizeMapOfWeights [1, 3])[(Int.floor (5 : ℚ) %
        (([1, 3] : List ℕ).length : ℤ)).toNat]? = some row ∧
      row[row.length / 2]? = some m ∧
      initialStartRotation 5 (prizeMapOfWeights [1, 3]) (JNum.val 4) =
        Except.ok (getRotationDegrees (JNum.val m) (JNum.val 4) false 0 0) :=
  ⟨(c10_starting_option [1, 3] (by decide) (by decide) (-1) (JNum.val 4)).1
      (by norm_num),
   (c10_starting_option [1, 3] (by decide) (by decide) 5 (JNum.val 4)).2
      (by norm_num)⟩
